import Mathlib

/-!
Shallow embedding of the universal machine emulator of src/main.c.

Machine words are natural numbers; C unsigned 32-bit arithmetic is modelled
with explicit reduction modulo 2 ^ 32 where the source wraps.  The eight
registers become a function from register index to word.  The two parallel
C globals Programs and ProgramSize become one function from identifier to
an optional word list: none models a NULL pointer, and the length of the
list carries ProgramSize.  The program counter is kept as an offset into
array 0, matching the pointer ProgramCounter taken relative to Programs[0].
Bytes written by putchar and read by getchar are carried in explicit output
and input lists.  Reaching C undefined behaviour (a pointer formed or
dereferenced outside its object) is modelled by a dedicated result value.
malloc, calloc and memcpy are modelled as always succeeding, and calloc of
zero members as returning a usable non-null allocation, as on glibc.
-/

namespace UM

/-- The cap of the identifier registry, NUM_ARRAYS of main.h. -/
def NUM_ARRAYS : Nat := 65536

/-- The decoded form of a standard instruction, the Instruction bitfield of
main.h. -/
structure Instruction where
  registerA : Nat
  registerB : Nat
  registerC : Nat
  opCode : Nat

/-- ParseInstruction of main.c: registerC is bits 0..2, registerB bits 3..5,
registerA bits 6..8, opCode bits 28..31.  Masking with 7 and 15 is reduction
modulo 8 and 16. -/
def ParseInstruction (w : Nat) : Instruction :=
  { registerC := w % 8,
    registerB := (w >>> 3) % 8,
    registerA := (w >>> 6) % 8,
    opCode := (w >>> 28) % 16 }

/-- The mutable globals of main.c plus the byte streams: Registers, the
merged Programs and ProgramSize registry, the program counter as an offset
into array 0, the bytes already written to standard output and the bytes
still waiting on standard input. -/
structure Config where
  regs : Nat → Nat
  heap : Nat → Option (List Nat)
  pc : Nat
  out : List Nat
  inp : List Nat

/-- Store v into register i. -/
def updReg (r : Nat → Nat) (i v : Nat) : Nat → Nat :=
  fun j => if j = i then v else r j

/-- Store a into registry slot i (Programs[i] together with ProgramSize[i]). -/
def updHeap (h : Nat → Option (List Nat)) (i : Nat) (a : Option (List Nat)) :
    Nat → Option (List Nat) :=
  fun j => if j = i then a else h j

/-- Result of one instruction helper of main.c: ok and fail carry the global
state at the moment the helper returns RET_SUCCESS or RET_FAILURE; ub
marks a run into C undefined behaviour. -/
inductive OpResult where
  | ok (c : Config)
  | fail (c : Config)
  | ub

/-- ConditionalMove of main.c. -/
def ConditionalMove (inst : Instruction) (s : Config) : Config :=
  if s.regs inst.registerC ≠ 0 then
    { s with regs := updReg s.regs inst.registerA (s.regs inst.registerB) }
  else s

/-- ArrayIndex of main.c.  The source sets array to the address of
Registers[registerB] — not to Programs[Registers[registerB]] — so array is
never NULL and the machine-exception branch is dead.  The read at
array + offset lands inside the Registers object while
registerB + offset < 8 and is undefined behaviour beyond it.  The registry
is never consulted and RET_FAILURE is never returned. -/
def ArrayIndex (inst : Instruction) (s : Config) : OpResult :=
  if inst.registerB + s.regs inst.registerC < 8 then
    .ok { s with
      regs := updReg s.regs inst.registerA
        (s.regs (inst.registerB + s.regs inst.registerC)) }
  else .ub

/-- ArrayUpdate of main.c.  Same slip as ArrayIndex: array is the address of
Registers[registerA], so the store lands in register registerA + offset when
that is < 8 and is undefined behaviour beyond; the registry is untouched. -/
def ArrayUpdate (inst : Instruction) (s : Config) : OpResult :=
  if inst.registerA + s.regs inst.registerB < 8 then
    .ok { s with
      regs := updReg s.regs (inst.registerA + s.regs inst.registerB)
        (s.regs inst.registerC) }
  else .ub

/-- Add of main.c; uint32_t addition wraps modulo 2 ^ 32. -/
def Add (inst : Instruction) (s : Config) : Config :=
  { s with regs := (updReg s.regs inst.registerA
      ((s.regs inst.registerB + s.regs inst.registerC) % 2 ^ 32)) }

/-- Multiply of main.c; uint32_t multiplication wraps modulo 2 ^ 32. -/
def Multiply (inst : Instruction) (s : Config) : Config :=
  { s with regs := (updReg s.regs inst.registerA
      ((s.regs inst.registerB * s.regs inst.registerC) % 2 ^ 32)) }

/-- Divide of main.c: RET_FAILURE on a zero divisor, otherwise unsigned
truncating division. -/
def Divide (inst : Instruction) (s : Config) : OpResult :=
  if s.regs inst.registerC ≠ 0 then
    .ok { s with regs := (updReg s.regs inst.registerA
        (s.regs inst.registerB / s.regs inst.registerC)) }
  else .fail s

/-- Nand of main.c: complement of the bitwise and, on 32-bit words. -/
def Nand (inst : Instruction) (s : Config) : Config :=
  { s with regs := (updReg s.regs inst.registerA
      ((s.regs inst.registerB &&& s.regs inst.registerC) ^^^ (2 ^ 32 - 1))) }

/-- The linear scan of Allocate in main.c.  Starting at index with fuel
remaining slots, return the first index whose registry entry is NULL, or
index + fuel when every scanned entry is live.  Allocate calls it at index 1
with fuel NUM_ARRAYS - 1, matching the pre-incremented while loop that skips
slot 0 and stops at NUM_ARRAYS. -/
def allocScan (heap : Nat → Option (List Nat)) : Nat → Nat → Nat
  | index, 0 => index
  | index, fuel + 1 =>
      if heap index = none then index else allocScan heap (index + 1) fuel

/-- Allocate of main.c: scan for the first NULL slot from index 1; when the
scan reaches NUM_ARRAYS return RET_FAILURE; otherwise install a
zero-initialized array of Registers[registerC] words there (calloc) and hand
the slot index back in register registerB. -/
def Allocate (inst : Instruction) (s : Config) : OpResult :=
  if allocScan s.heap 1 (NUM_ARRAYS - 1) = NUM_ARRAYS then .fail s
  else
    .ok { s with
      heap := updHeap s.heap (allocScan s.heap 1 (NUM_ARRAYS - 1))
        (some (List.replicate (s.regs inst.registerC) 0)),
      regs := updReg s.regs inst.registerB (allocScan s.heap 1 (NUM_ARRAYS - 1)) }

/-- Deallocate of main.c: RET_FAILURE for index 0, for an index at or past
NUM_ARRAYS, and for a NULL entry; otherwise the entry is freed (NULL
pointer, size 0). -/
def Deallocate (inst : Instruction) (s : Config) : OpResult :=
  if s.regs inst.registerC = 0 ∨ NUM_ARRAYS ≤ s.regs inst.registerC then .fail s
  else
    match s.heap (s.regs inst.registerC) with
    | none => .fail s
    | some _ => .ok { s with heap := updHeap s.heap (s.regs inst.registerC) none }

/-- Output of main.c: a value above 255 is RET_FAILURE with nothing written;
otherwise putchar appends the byte to standard output. -/
def Output (inst : Instruction) (s : Config) : OpResult :=
  if 255 < s.regs inst.registerC then .fail s
  else .ok { s with out := s.out ++ [s.regs inst.registerC] }

/-- Input of main.c: getchar yields EOF on an exhausted stream and the
register is filled with all 32 one bits; otherwise the next byte is
consumed.  The guard against values outside 0..255 mirrors the source even
though a real byte stream never produces them. -/
def Input (inst : Instruction) (s : Config) : OpResult :=
  match s.inp with
  | [] => .ok { s with regs := updReg s.regs inst.registerC (2 ^ 32 - 1) }
  | v :: rest =>
      if 255 < v then .fail { s with inp := rest }
      else .ok { s with regs := updReg s.regs inst.registerC v, inp := rest }

/-- LoadProgram of main.c.  Registers[registerB] picks the source array:
index 0 just reseats the program counter at offset Registers[registerC];
a non-zero index at or past NUM_ARRAYS reads Programs out of range,
undefined behaviour; a NULL entry, or an offset strictly past the source
size, is RET_FAILURE with nothing copied; otherwise a copy of the source
array replaces array 0 (malloc, memcpy, free of the old storage) and the
counter is rebased to the given offset in the new array 0. -/
def LoadProgram (inst : Instruction) (s : Config) : OpResult :=
  if s.regs inst.registerB = 0 then .ok { s with pc := s.regs inst.registerC }
  else if NUM_ARRAYS ≤ s.regs inst.registerB then .ub
  else
    match s.heap (s.regs inst.registerB) with
    | none => .fail s
    | some prog =>
        if prog.length < s.regs inst.registerC then .fail s
        else
          .ok { s with
            heap := updHeap s.heap 0 (some prog),
            pc := s.regs inst.registerC }

/-- LoadImmediate of main.c: bits 0..24 of the raw word go to the register
named by bits 25..27.  Masking with 0x01FFFFFF and 7 is reduction modulo
2 ^ 25 and 8. -/
def LoadImmediate (w : Nat) (s : Config) : Config :=
  { s with regs := updReg s.regs ((w >>> 25) % 8) (w % 2 ^ 25) }

/-- Outcome of the dispatch switch of the main loop: ok and fail as in
OpResult, halt for the HALT case that returns EXIT_SUCCESS on the spot,
ub for C undefined behaviour. -/
inductive ExecResult where
  | ok (c : Config)
  | halt (c : Config)
  | fail (c : Config)
  | ub

/-- Lift an instruction helper result into the dispatch outcome. -/
def liftOp : OpResult → ExecResult
  | .ok c => .ok c
  | .fail c => .fail c
  | .ub => .ub

/-- The switch statement of the main loop of main.c on an already parsed
instruction; w is the raw word, needed by LOAD_IMMEDIATE.  Opcodes 14 and 15
hit the default branch and make the process return EXIT_FAILURE. -/
def exec (inst : Instruction) (w : Nat) (s : Config) : ExecResult :=
  if inst.opCode = 0 then .ok (ConditionalMove inst s)
  else if inst.opCode = 1 then liftOp (ArrayIndex inst s)
  else if inst.opCode = 2 then liftOp (ArrayUpdate inst s)
  else if inst.opCode = 3 then .ok (Add inst s)
  else if inst.opCode = 4 then .ok (Multiply inst s)
  else if inst.opCode = 5 then liftOp (Divide inst s)
  else if inst.opCode = 6 then .ok (Nand inst s)
  else if inst.opCode = 7 then .halt s
  else if inst.opCode = 8 then liftOp (Allocate inst s)
  else if inst.opCode = 9 then liftOp (Deallocate inst s)
  else if inst.opCode = 10 then liftOp (Output inst s)
  else if inst.opCode = 11 then liftOp (Input inst s)
  else if inst.opCode = 12 then liftOp (LoadProgram inst s)
  else if inst.opCode = 13 then .ok (LoadImmediate w s)
  else .fail s

/-- One iteration of the main loop of main.c, observed from a state where
the machine is still running. -/
inductive StepResult where
  | running (c : Config)
  | halted (c : Config)
  | faulted (c : Config)
  | ub

/-- The tail of a loop iteration of main.c: a RET_FAILURE return value exits
the process with EXIT_FAILURE, HALT has already exited with EXIT_SUCCESS,
and after any other instruction the loop exits with EXIT_FAILURE when the
counter, as an offset against the current Programs[0], has reached
ProgramSize[0]. -/
def afterExec : ExecResult → StepResult
  | .ok c =>
      match c.heap 0 with
      | none => .ub
      | some p0 => if p0.length ≤ c.pc then .faulted c else .running c
  | .halt c => .halted c
  | .fail c => .faulted c
  | .ub => .ub

/-- One full iteration of the main loop: read the word under the counter
(the dereference is undefined behaviour if array 0 is NULL or the counter is
out of its bounds, which the loop itself never lets happen), advance the
counter by one word, dispatch on the parsed instruction, then apply the
end-of-iteration exit checks. -/
def step (s : Config) : StepResult :=
  match s.heap 0 with
  | none => .ub
  | some prog0 =>
      if s.pc < prog0.length then
        afterExec (exec (ParseInstruction (prog0.getD s.pc 0)) (prog0.getD s.pc 0)
          { s with pc := s.pc + 1 })
      else .ub

/-- Iterate the main loop a bounded number of times from a loop state. -/
def run : Nat → StepResult → StepResult
  | 0, r => r
  | n + 1, .running c => run n (step c)
  | _ + 1, .halted c => .halted c
  | _ + 1, .faulted c => .faulted c
  | _ + 1, .ub => .ub

/-- The machine state right after a successful Init in main.c: the image
words sit in array 0, every other registry entry is NULL, the registers are
zero and the counter points at the first word. -/
def initConfig (img input : List Nat) : Config :=
  { regs := fun _ => 0,
    heap := fun i => if i = 0 then some img else none,
    pc := 0,
    out := [],
    inp := input }

/-! Concrete machine states used to exercise the theorems. -/

/-- R[1] = 1 names the live array 1 with content [42]; R[2] = 0; the code
array holds the Array Index word 0x100000CA (A = 3, B = 1, C = 2). -/
def cfgC1 : Config :=
  { regs := updReg (fun _ => 0) 1 1,
    heap := fun i => if i = 0 then some [0x100000CA] else if i = 1 then some [42] else none,
    pc := 0, out := [], inp := [] }

/-- Like cfgC1 but identifier 1 is absent while R[1] still holds 1. -/
def cfgC1absent : Config :=
  { regs := updReg (fun _ => 0) 1 1,
    heap := fun i => if i = 0 then some [0x100000CA] else none,
    pc := 0, out := [], inp := [] }

/-- Identifier 1 is live with content [0].  R[1] = 1 (the identifier),
R[2] = 0 (the offset), R[3] = 7 (the value to store), R[5] = 1 (the
identifier again, for the read back), R[6] = 0 (the offset again). -/
def cfgC2 : Config :=
  { regs := updReg (updReg (updReg (fun _ => 0) 1 1) 3 7) 5 1,
    heap := fun i => if i = 0 then some [0x20000053, 0x1000012E] else if i = 1 then some [0] else none,
    pc := 0, out := [], inp := [] }

/-- About to execute Load Program (word 0xC000000A: B = 1, C = 2) with
R[1] = 1 naming the live two-word array [10, 11] and R[2] = 5, an offset
past that length. -/
def cfgC3x : Config :=
  { regs := updReg (updReg (fun _ => 0) 1 1) 2 5,
    heap := fun i => if i = 0 then some [0xC000000A, 0] else if i = 1 then some [10, 11] else none,
    pc := 0, out := [], inp := [] }

/-- About to execute Load Program (word 0xC000000A: B = 1, C = 2) on the
fast path: R[1] = 0, R[2] = 1, so the counter reseeks to offset 1 of the
three-word array 0. -/
def cfgC3w : Config :=
  { regs := updReg (fun _ => 0) 2 1,
    heap := fun i => if i = 0 then some [0xC000000A, 0, 0] else none,
    pc := 0, out := [], inp := [] }

/-- About to execute the Add word 0x30000000 (A = B = C = 0) with a halt
word behind it. -/
def cfgC7 : Config :=
  { regs := fun _ => 0,
    heap := fun i => if i = 0 then some [0x30000000, 0x70000000] else none,
    pc := 0, out := [], inp := [] }

/-- About to execute Load Program (word 0xC000000A) on the fast path with
target offset R[2] = 1, where a halt word sits. -/
def cfgC7j : Config :=
  { regs := updReg (fun _ => 0) 2 1,
    heap := fun i => if i = 0 then some [0xC000000A, 0x70000000] else none,
    pc := 0, out := [], inp := [] }

/-- About to execute the Divide word 0x50000000 with R[0] = 0: a divisor of
zero, the Division fault. -/
def cfgC9 : Config :=
  { regs := fun _ => 0,
    heap := fun i => if i = 0 then some [0x50000000] else none,
    pc := 0, out := [], inp := [] }

/-- The Output word 0xA0000000 names register 0 in its C field. -/
def instOut : Instruction := ParseInstruction 0xA0000000

/-- The Allocation word 0x80000011 asks for R[1] words and answers in R[2]. -/
def instAlloc : Instruction := ParseInstruction 0x80000011

/-- The Deallocation word 0x90000000 names register 0 in its C field. -/
def instDealloc : Instruction := ParseInstruction 0x90000000

/-- Only array 0 is live and R[1] = 1: an Allocation must install one zero
word under identifier 1. -/
def cfgC4 : Config :=
  { regs := updReg (fun _ => 0) 1 1,
    heap := fun i => if i = 0 then some [0x80000011] else none,
    pc := 0, out := [], inp := [] }

/-- Every identifier below the cap is live: the identifier space is
exhausted and an Allocation must fail. -/
def cfgC4full : Config :=
  { regs := fun _ => 0,
    heap := fun i => if i < NUM_ARRAYS then some [] else none,
    pc := 0, out := [], inp := [] }

/-- Only array 0 is live and every register is 0: an Allocation asks for
zero words. -/
def cfgC10 : Config :=
  { regs := fun _ => 0,
    heap := fun i => if i = 0 then some [0x80000011] else none,
    pc := 0, out := [], inp := [] }

/-- Identifiers 0, 1 and 2 are live and R[0] = 2: a Deallocation frees
identifier 2, and with 1 still live a following Allocation returns 2. -/
def cfgC5 : Config :=
  { regs := updReg (fun _ => 0) 0 2,
    heap := fun i => if i < 3 then some [] else none,
    pc := 0, out := [], inp := [] }

/-- Every register holds 255, the largest value Output accepts. -/
def cfg255 : Config :=
  { regs := fun _ => 255,
    heap := fun i => if i = 0 then some [0xA0000000] else none,
    pc := 0, out := [], inp := [] }

/-- Every register holds 256, the smallest value Output rejects. -/
def cfg256 : Config :=
  { regs := fun _ => 256,
    heap := fun i => if i = 0 then some [0xA0000000] else none,
    pc := 0, out := [], inp := [] }


/-! Supporting lemmas about the loop skeleton. -/

/-- Unfold one loop iteration once the fetch is known to be in bounds. -/
theorem step_eq (s : Config) (p : List Nat) (w : Nat) (hp : s.heap 0 = some p)
    (hpc : s.pc < p.length) (hw : p.getD s.pc 0 = w) :
    step s = afterExec (exec (ParseInstruction w) w { s with pc := s.pc + 1 }) := by
  unfold step
  split
  · next heq => rw [hp] at heq; exact absurd heq (by simp)
  · next prog0 heq =>
      rw [hp] at heq
      injection heq with heq
      subst heq
      rw [if_pos hpc, hw]

/-- A successful instruction is followed by the loop bound check. -/
theorem afterExec_ok (c : Config) (p0 : List Nat) (h : c.heap 0 = some p0) :
    afterExec (ExecResult.ok c) =
      if p0.length ≤ c.pc then StepResult.faulted c else StepResult.running c := by
  have hred : afterExec (ExecResult.ok c) =
      (match c.heap 0 with
        | none => StepResult.ub
        | some q =>
            if q.length ≤ c.pc then StepResult.faulted c else StepResult.running c) := rfl
  rw [hred, h]

/-- The loop only keeps running out of a successful instruction whose state
passes the bound check. -/
theorem afterExec_running {e : ExecResult} {c : Config}
    (h : afterExec e = StepResult.running c) :
    e = ExecResult.ok c ∧ ∃ p, c.heap 0 = some p ∧ c.pc < p.length := by
  cases e with
  | ok c2 =>
      have hred : afterExec (ExecResult.ok c2) =
          (match c2.heap 0 with
            | none => StepResult.ub
            | some q =>
                if q.length ≤ c2.pc then StepResult.faulted c2
                else StepResult.running c2) := rfl
      rw [hred] at h
      split at h
      · exact StepResult.noConfusion h
      · next p0 heq =>
          split_ifs at h with hle
          injection h with h
          subst h
          exact ⟨rfl, p0, heq, by omega⟩
  | halt c2 => exact StepResult.noConfusion h
  | fail c2 => exact StepResult.noConfusion h
  | ub => exact StepResult.noConfusion h

/-- A state the loop keeps running from has a live, long-enough array 0. -/
theorem step_running_inv {s c : Config} (h : step s = StepResult.running c) :
    ∃ p, c.heap 0 = some p ∧ c.pc < p.length := by
  unfold step at h
  split at h
  · exact StepResult.noConfusion h
  · next prog0 heq =>
      split_ifs at h with hpc
      exact (afterExec_running h).2

theorem run_halted (n : Nat) (c : Config) :
    run n (StepResult.halted c) = StepResult.halted c := by
  cases n <;> rfl

theorem run_faulted (n : Nat) (c : Config) :
    run n (StepResult.faulted c) = StepResult.faulted c := by
  cases n <;> rfl

theorem run_ub (n : Nat) : run n StepResult.ub = StepResult.ub := by
  cases n <;> rfl

/-- The array 0 bound invariant survives any number of loop iterations. -/
theorem run_running {n : Nat} {c0 c : Config}
    (h : run n (StepResult.running c0) = StepResult.running c)
    (h0 : ∃ p, c0.heap 0 = some p ∧ c0.pc < p.length) :
    ∃ p, c.heap 0 = some p ∧ c.pc < p.length := by
  induction n generalizing c0 with
  | zero =>
      injection h with h
      subst h
      exact h0
  | succ n ih =>
      rw [show run (n + 1) (StepResult.running c0) = run n (step c0) from rfl] at h
      cases hs : step c0 with
      | running d => rw [hs] at h; exact ih h (step_running_inv hs)
      | halted d => rw [hs, run_halted] at h; exact StepResult.noConfusion h
      | faulted d => rw [hs, run_faulted] at h; exact StepResult.noConfusion h
      | ub => rw [hs, run_ub] at h; exact StepResult.noConfusion h

/-! Reductions of the dispatch switch at a fixed opcode. -/

theorem exec_opcode_5 (inst : Instruction) (w : Nat) (s : Config)
    (h : inst.opCode = 5) : exec inst w s = liftOp (Divide inst s) := by
  unfold exec; rw [h]; rfl

theorem exec_opcode_8 (inst : Instruction) (w : Nat) (s : Config)
    (h : inst.opCode = 8) : exec inst w s = liftOp (Allocate inst s) := by
  unfold exec; rw [h]; rfl

theorem exec_opcode_9 (inst : Instruction) (w : Nat) (s : Config)
    (h : inst.opCode = 9) : exec inst w s = liftOp (Deallocate inst s) := by
  unfold exec; rw [h]; rfl

theorem exec_opcode_10 (inst : Instruction) (w : Nat) (s : Config)
    (h : inst.opCode = 10) : exec inst w s = liftOp (Output inst s) := by
  unfold exec; rw [h]; rfl

theorem exec_opcode_12 (inst : Instruction) (w : Nat) (s : Config)
    (h : inst.opCode = 12) : exec inst w s = liftOp (LoadProgram inst s) := by
  unfold exec; rw [h]; rfl

theorem liftOp_ok {r : OpResult} {c : Config} (h : liftOp r = ExecResult.ok c) :
    r = OpResult.ok c := by
  cases r <;> simp_all [liftOp]

theorem liftOp_fail {r : OpResult} {c : Config} (h : liftOp r = ExecResult.fail c) :
    r = OpResult.fail c := by
  cases r <;> simp_all [liftOp]

theorem afterExec_liftOp_ok (c : Config) (p0 : List Nat) (h : c.heap 0 = some p0) :
    afterExec (liftOp (OpResult.ok c)) =
      if p0.length ≤ c.pc then StepResult.faulted c else StepResult.running c :=
  afterExec_ok c p0 h

theorem afterExec_liftOp_fail (c : Config) :
    afterExec (liftOp (OpResult.fail c)) = StepResult.faulted c := rfl

/-- The fast path of LoadProgram: with Registers[registerB] = 0 only the
counter moves, and the loop bound check decides between running on and
faulting. -/
theorem step_op12_zero (s : Config) (p : List Nat) (w : Nat)
    (hp : s.heap 0 = some p) (hpc : s.pc < p.length) (hw : p.getD s.pc 0 = w)
    (h12 : (ParseInstruction w).opCode = 12)
    (hB : s.regs (ParseInstruction w).registerB = 0) :
    step s = if p.length ≤ s.regs (ParseInstruction w).registerC
      then StepResult.faulted { s with pc := s.regs (ParseInstruction w).registerC }
      else StepResult.running { s with pc := s.regs (ParseInstruction w).registerC } := by
  have hstep := step_eq s p w hp hpc hw
  rw [exec_opcode_12 _ w _ h12] at hstep
  have hLP : LoadProgram (ParseInstruction w) { s with pc := s.pc + 1 } =
      OpResult.ok { s with pc := s.regs (ParseInstruction w).registerC } := by
    unfold LoadProgram
    dsimp only
    rw [if_pos hB]
  rw [hLP, afterExec_liftOp_ok { s with pc := s.regs (ParseInstruction w).registerC } p hp]
    at hstep
  dsimp only at hstep
  exact hstep

/-! Per-helper facts: no helper moves the program counter, and a RET_FAILURE
return leaves the state exactly as the helper received it. -/

theorem ConditionalMove_pc (inst : Instruction) (s : Config) :
    (ConditionalMove inst s).pc = s.pc := by
  unfold ConditionalMove; split <;> rfl

theorem ArrayIndex_ok_pc {inst : Instruction} {s c : Config}
    (h : ArrayIndex inst s = OpResult.ok c) : c.pc = s.pc := by
  unfold ArrayIndex at h; split_ifs at h; injection h with h; subst h; rfl

theorem ArrayUpdate_ok_pc {inst : Instruction} {s c : Config}
    (h : ArrayUpdate inst s = OpResult.ok c) : c.pc = s.pc := by
  unfold ArrayUpdate at h; split_ifs at h; injection h with h; subst h; rfl

theorem Divide_ok_pc {inst : Instruction} {s c : Config}
    (h : Divide inst s = OpResult.ok c) : c.pc = s.pc := by
  unfold Divide at h; split_ifs at h; injection h with h; subst h; rfl

theorem Allocate_ok_pc {inst : Instruction} {s c : Config}
    (h : Allocate inst s = OpResult.ok c) : c.pc = s.pc := by
  unfold Allocate at h; split_ifs at h; injection h with h; subst h; rfl

theorem Deallocate_ok_pc {inst : Instruction} {s c : Config}
    (h : Deallocate inst s = OpResult.ok c) : c.pc = s.pc := by
  unfold Deallocate at h
  split_ifs at h
  split at h
  · exact OpResult.noConfusion h
  · injection h with h; subst h; rfl

theorem Output_ok_pc {inst : Instruction} {s c : Config}
    (h : Output inst s = OpResult.ok c) : c.pc = s.pc := by
  unfold Output at h; split_ifs at h; injection h with h; subst h; rfl

theorem Input_ok_pc {inst : Instruction} {s c : Config}
    (h : Input inst s = OpResult.ok c) : c.pc = s.pc := by
  unfold Input at h
  split at h
  · injection h with h; subst h; rfl
  · split_ifs at h; injection h with h; subst h; rfl

theorem Divide_fail_eq {inst : Instruction} {s c : Config}
    (h : Divide inst s = OpResult.fail c) : c = s := by
  unfold Divide at h; split_ifs at h; injection h with h; exact h.symm

theorem Allocate_fail_eq {inst : Instruction} {s c : Config}
    (h : Allocate inst s = OpResult.fail c) : c = s := by
  unfold Allocate at h; split_ifs at h; injection h with h; exact h.symm

theorem Deallocate_fail_eq {inst : Instruction} {s c : Config}
    (h : Deallocate inst s = OpResult.fail c) : c = s := by
  unfold Deallocate at h
  split_ifs at h
  · injection h with h; exact h.symm
  · split at h
    · injection h with h; exact h.symm
    · exact OpResult.noConfusion h

theorem Output_fail_eq {inst : Instruction} {s c : Config}
    (h : Output inst s = OpResult.fail c) : c = s := by
  unfold Output at h; split_ifs at h; injection h with h; exact h.symm

/-- Apart from LoadProgram, no successful instruction moves the counter. -/
theorem exec_pc (inst : Instruction) (w : Nat) (s c : Config)
    (hne : inst.opCode ≠ 12) (h : exec inst w s = ExecResult.ok c) : c.pc = s.pc := by
  obtain ⟨ra, rb, rc, k⟩ := inst
  unfold exec at h
  dsimp only at h hne
  by_cases hk : k < 14
  · interval_cases k
    all_goals norm_num at h
    all_goals first
      | exact absurd rfl hne
      | exact ExecResult.noConfusion h
      | (subst h; rfl)
      | (subst h; exact ConditionalMove_pc _ s)
      | exact ArrayIndex_ok_pc (liftOp_ok h)
      | exact ArrayUpdate_ok_pc (liftOp_ok h)
      | exact Divide_ok_pc (liftOp_ok h)
      | exact Allocate_ok_pc (liftOp_ok h)
      | exact Deallocate_ok_pc (liftOp_ok h)
      | exact Output_ok_pc (liftOp_ok h)
      | exact Input_ok_pc (liftOp_ok h)
  · repeat rw [if_neg (by omega)] at h
    exact ExecResult.noConfusion h

/-! The linear scan of Allocate. -/

theorem allocScan_zero (heap : Nat → Option (List Nat)) (index : Nat) :
    allocScan heap index 0 = index := rfl

theorem allocScan_succ (heap : Nat → Option (List Nat)) (index fuel : Nat) :
    allocScan heap index (fuel + 1) =
      if heap index = none then index else allocScan heap (index + 1) fuel := rfl

/-- When some scanned slot is NULL, the scan stops at the first such slot. -/
theorem allocScan_mem (heap : Nat → Option (List Nat)) :
    ∀ fuel index, (∃ j, index ≤ j ∧ j < index + fuel ∧ heap j = none) →
      index ≤ allocScan heap index fuel ∧
      allocScan heap index fuel < index + fuel ∧
      heap (allocScan heap index fuel) = none ∧
      ∀ j, index ≤ j → j < allocScan heap index fuel → heap j ≠ none := by
  intro fuel
  induction fuel with
  | zero =>
      rintro index ⟨j, h1, h2, -⟩
      omega
  | succ fuel ih =>
      intro index hex
      rw [allocScan_succ]
      by_cases h : heap index = none
      · rw [if_pos h]
        exact ⟨Nat.le_refl _, by omega, h, fun j hj1 hj2 => absurd hj2 (by omega)⟩
      · rw [if_neg h]
        obtain ⟨j, hj1, hj2, hj3⟩ := hex
        have hjne : j ≠ index := fun hh => h (hh ▸ hj3)
        obtain ⟨ha, hb, hc, hd⟩ := ih (index + 1) ⟨j, by omega, by omega, hj3⟩
        refine ⟨by omega, by omega, hc, fun k hk1 hk2 => ?_⟩
        rcases Nat.eq_or_lt_of_le hk1 with he | hl
        · exact he ▸ h
        · exact hd k (by omega) hk2

theorem updHeap_same (h : Nat → Option (List Nat)) (i : Nat) (a : Option (List Nat)) :
    updHeap h i a i = a := by
  simp [updHeap]

theorem updHeap_other (h : Nat → Option (List Nat)) {i j : Nat} (a : Option (List Nat))
    (hne : j ≠ i) : updHeap h i a j = h j := by
  simp [updHeap, hne]

/-- Allocate at a known scan result below the cap. -/
theorem Allocate_ok_of_scan (inst : Instruction) (s : Config) (m : Nat)
    (hscan : allocScan s.heap 1 (NUM_ARRAYS - 1) = m) (hm : m < NUM_ARRAYS) :
    Allocate inst s = OpResult.ok { s with
      heap := updHeap s.heap m (some (List.replicate (s.regs inst.registerC) 0)),
      regs := updReg s.regs inst.registerB m } := by
  unfold Allocate
  rw [hscan, if_neg (by omega)]

/-- When every scanned slot is live, the scan runs off the end. -/
theorem allocScan_full (heap : Nat → Option (List Nat)) :
    ∀ fuel index, (∀ j, index ≤ j → j < index + fuel → heap j ≠ none) →
      allocScan heap index fuel = index + fuel := by
  intro fuel
  induction fuel with
  | zero => intro index _; rfl
  | succ fuel ih =>
      intro index hall
      rw [allocScan_succ, if_neg (hall index (Nat.le_refl _) (by omega))]
      rw [ih (index + 1) (fun j h1 h2 => hall j (by omega) (by omega))]
      omega

/-- C1: refuted by the code.  Word 0x100000CA decodes to Array Index with
A = 3, B = 1, C = 2.  In cfgC1, R[B] = 1 is a live identifier whose array
holds the word 42 at offset R[C] = 0 < length 1, so the claim demands
R[3] = 42; the code instead takes the address of register B, reads register
memory and returns R[3] = 1.  In cfgC1absent the identifier named by R[B] is
absent, so the claim demands a fault; the code still succeeds because its
NULL test inspects the register address, which is never NULL. -/
theorem arrayIndex_code_bug :
    cfgC1.heap (cfgC1.regs (ParseInstruction 0x100000CA).registerB) = some [42] ∧
    cfgC1.regs (ParseInstruction 0x100000CA).registerC = 0 ∧
    (∃ c, ArrayIndex (ParseInstruction 0x100000CA) cfgC1 = OpResult.ok c ∧
      c.regs 3 = 1) ∧
    cfgC1absent.heap (cfgC1absent.regs (ParseInstruction 0x100000CA).registerB) = none ∧
    (∃ c, ArrayIndex (ParseInstruction 0x100000CA) cfgC1absent = OpResult.ok c) := by
  exact ⟨rfl, rfl, ⟨_, rfl, rfl⟩, rfl, ⟨_, rfl⟩⟩

/-- C2: refuted by the code.  In cfgC2 identifier 1 is live with content
[0], the offset k = 0 is within its length and v = 7.  Word 0x20000053
(Array Update, A = 1, B = 2, C = 3) should store 7 at offset 0 of array 1,
and word 0x1000012E (Array Index, A = 4, B = 5, C = 6) should then read 7
back.  Instead the store lands in register 1 and the read returns the
content of register 5, so the read back yields 1, not 7, and the array
still holds [0]. -/
theorem arrayUpdate_roundtrip_code_bug :
    cfgC2.heap 1 = some [0] ∧
    cfgC2.regs (ParseInstruction 0x20000053).registerA = 1 ∧
    cfgC2.regs (ParseInstruction 0x20000053).registerB = 0 ∧
    cfgC2.regs (ParseInstruction 0x20000053).registerC = 7 ∧
    (∃ c1 c2, ArrayUpdate (ParseInstruction 0x20000053) cfgC2 = OpResult.ok c1 ∧
      c1.regs (ParseInstruction 0x1000012E).registerB = 1 ∧
      c1.regs (ParseInstruction 0x1000012E).registerC = 0 ∧
      ArrayIndex (ParseInstruction 0x1000012E) c1 = OpResult.ok c2 ∧
      c2.regs (ParseInstruction 0x1000012E).registerA = 1 ∧
      c2.heap 1 = some [0]) := by
  exact ⟨rfl, rfl, rfl, rfl, ⟨_, _, rfl, rfl, rfl, rfl, rfl, rfl⟩⟩

/-- C3, counterexample to the claim as stated: in cfgC3x the instruction is
Load Program with R[B] = 1, a live non-zero identifier holding [10, 11],
and R[C] = 5.  The claim says array 0 is replaced with a copy of array 1;
instead the machine faults with array 0 still holding the old program,
because the source refuses offsets strictly past the source length before
copying anything. -/
theorem loadProgram_counterexample :
    cfgC3x.regs (ParseInstruction 0xC000000A).registerB = 1 ∧
    cfgC3x.heap 1 = some [10, 11] ∧
    cfgC3x.regs (ParseInstruction 0xC000000A).registerC = 5 ∧
    (∃ c, step cfgC3x = StepResult.faulted c ∧
      c.heap 0 = some [0xC000000A, 0] ∧ c.heap 0 ≠ some [10, 11]) := by
  exact ⟨rfl, rfl, rfl, ⟨_, rfl, rfl, by decide⟩⟩

/-- C3, as amended: with R[B] = 0 Load Program only moves the counter to
offset R[C] of the existing array 0, faulting before the next fetch when
R[C] is at or past its length.  With R[B] a live non-zero identifier
holding q: when R[C] < length q a copy of q replaces array 0 and the
counter lands on R[C]; when R[C] = length q the copy still happens but the
loop bound check faults before the next fetch; when R[C] > length q the
machine faults at once with the whole state (array 0 included) unchanged
except for the already advanced counter. -/
theorem loadProgram_spec (s : Config) (p : List Nat) (w : Nat)
    (hp : s.heap 0 = some p) (hpc : s.pc < p.length)
    (hw : p.getD s.pc 0 = w) (hop : (ParseInstruction w).opCode = 12) :
    (s.regs (ParseInstruction w).registerB = 0 →
      (s.regs (ParseInstruction w).registerC < p.length →
        step s = StepResult.running { s with pc := s.regs (ParseInstruction w).registerC }) ∧
      (p.length ≤ s.regs (ParseInstruction w).registerC →
        step s = StepResult.faulted { s with pc := s.regs (ParseInstruction w).registerC })) ∧
    (∀ q, s.regs (ParseInstruction w).registerB ≠ 0 →
      s.regs (ParseInstruction w).registerB < NUM_ARRAYS →
      s.heap (s.regs (ParseInstruction w).registerB) = some q →
      (s.regs (ParseInstruction w).registerC < q.length →
        step s = StepResult.running
          { s with heap := updHeap s.heap 0 (some q),
                   pc := s.regs (ParseInstruction w).registerC }) ∧
      (s.regs (ParseInstruction w).registerC = q.length →
        step s = StepResult.faulted
          { s with heap := updHeap s.heap 0 (some q),
                   pc := s.regs (ParseInstruction w).registerC }) ∧
      (q.length < s.regs (ParseInstruction w).registerC →
        step s = StepResult.faulted { s with pc := s.pc + 1 })) := by
  have hstep := step_eq s p w hp hpc hw
  rw [exec_opcode_12 _ w _ hop] at hstep
  constructor
  · intro hB
    have h2 := step_op12_zero s p w hp hpc hw hop hB
    constructor
    · intro hC
      rwa [if_neg (by omega)] at h2
    · intro hC
      rwa [if_pos (by omega)] at h2
  · intro q hBne hBlt hq
    refine ⟨?_, ?_, ?_⟩
    · intro hC
      have hLP : LoadProgram (ParseInstruction w) { s with pc := s.pc + 1 } =
          OpResult.ok { s with heap := updHeap s.heap 0 (some q),
                               pc := s.regs (ParseInstruction w).registerC } := by
        unfold LoadProgram
        dsimp only
        rw [if_neg hBne,
          if_neg (show ¬ NUM_ARRAYS ≤ s.regs (ParseInstruction w).registerB by omega), hq]
        dsimp only
        rw [if_neg (by omega)]
      rw [hLP] at hstep
      rw [afterExec_liftOp_ok _ q rfl] at hstep
      dsimp only at hstep
      rwa [if_neg (by omega)] at hstep
    · intro hC
      have hLP : LoadProgram (ParseInstruction w) { s with pc := s.pc + 1 } =
          OpResult.ok { s with heap := updHeap s.heap 0 (some q),
                               pc := s.regs (ParseInstruction w).registerC } := by
        unfold LoadProgram
        dsimp only
        rw [if_neg hBne,
          if_neg (show ¬ NUM_ARRAYS ≤ s.regs (ParseInstruction w).registerB by omega), hq]
        dsimp only
        rw [if_neg (by omega)]
      rw [hLP] at hstep
      rw [afterExec_liftOp_ok _ q rfl] at hstep
      dsimp only at hstep
      rwa [if_pos (by omega)] at hstep
    · intro hC
      have hLP : LoadProgram (ParseInstruction w) { s with pc := s.pc + 1 } =
          OpResult.fail { s with pc := s.pc + 1 } := by
        unfold LoadProgram
        dsimp only
        rw [if_neg hBne,
          if_neg (show ¬ NUM_ARRAYS ≤ s.regs (ParseInstruction w).registerB by omega), hq]
        dsimp only
        rw [if_pos (by omega)]
      rw [hLP, afterExec_liftOp_fail] at hstep
      exact hstep

/-- C3, witness: in cfgC3w the fast path with R[C] = 1 < 3 leaves the
machine running with the counter at offset 1. -/
theorem loadProgram_spec_witness :
    step cfgC3w = StepResult.running { cfgC3w with pc := cfgC3w.regs 2 } := by
  have h := loadProgram_spec cfgC3w [0xC000000A, 0, 0] 0xC000000A rfl (by decide) rfl rfl
  exact (h.1 rfl).1 (by decide)

/-- C7: the counter is advanced by exactly one word between the fetch and
the execution of the fetched instruction.  Any instruction other than Load
Program that leaves the machine running leaves the counter at the fetch
offset plus one; Load Program with R[B] = 0 and target offset O inside
array 0 leaves the counter exactly at O over the unchanged array 0, so the
word at offset O is the next one fetched. -/
theorem pc_increment_spec (s : Config) (p : List Nat) (w : Nat)
    (hp : s.heap 0 = some p) (hpc : s.pc < p.length) (hw : p.getD s.pc 0 = w) :
    (∀ c, step s = StepResult.running c → (ParseInstruction w).opCode ≠ 12 →
      c.pc = s.pc + 1) ∧
    ((ParseInstruction w).opCode = 12 → s.regs (ParseInstruction w).registerB = 0 →
      s.regs (ParseInstruction w).registerC < p.length →
      step s = StepResult.running { s with pc := s.regs (ParseInstruction w).registerC } ∧
      ({ s with pc := s.regs (ParseInstruction w).registerC } : Config).heap 0 = some p) := by
  constructor
  · intro c hrun hne
    rw [step_eq s p w hp hpc hw] at hrun
    obtain ⟨hok, -⟩ := afterExec_running hrun
    exact exec_pc (ParseInstruction w) w _ c hne hok
  · intro h12 hB hC
    have h2 := step_op12_zero s p w hp hpc hw h12 hB
    rw [if_neg (by omega)] at h2
    exact ⟨h2, hp⟩

/-- C7, witness: the Add step of cfgC7 leaves the counter at offset 1, and
the fast-path Load Program step of cfgC7j leaves it exactly at the target
offset 1 over the unchanged array 0. -/
theorem pc_increment_spec_witness :
    ({ cfgC7 with regs := updReg cfgC7.regs 0 0, pc := cfgC7.pc + 1 } : Config).pc =
      cfgC7.pc + 1 ∧
    step cfgC7j = StepResult.running { cfgC7j with pc := cfgC7j.regs 2 } ∧
    ({ cfgC7j with pc := cfgC7j.regs 2 } : Config).heap 0 = some [0xC000000A, 0x70000000] := by
  refine ⟨?_, ?_⟩
  · have h := (pc_increment_spec cfgC7 [0x30000000, 0x70000000] 0x30000000 rfl
      (by decide) rfl).1
    exact h { cfgC7 with regs := updReg cfgC7.regs 0 0, pc := cfgC7.pc + 1 } rfl (by decide)
  · have h := (pc_increment_spec cfgC7j [0xC000000A, 0x70000000] 0xC000000A rfl
      (by decide) rfl).2
    exact h rfl rfl (by decide)

/-- C8: Output with R[C] at most 255 appends exactly the one byte R[C] to
standard output and succeeds; with R[C] above 255 it returns RET_FAILURE
with the state, output included, untouched. -/
theorem output_spec (inst : Instruction) (s : Config) :
    (s.regs inst.registerC ≤ 255 →
      Output inst s = OpResult.ok { s with out := s.out ++ [s.regs inst.registerC] }) ∧
    (255 < s.regs inst.registerC → Output inst s = OpResult.fail s) := by
  constructor
  · intro h
    unfold Output
    rw [if_neg (by omega)]
  · intro h
    unfold Output
    rw [if_pos h]

/-- C8, witness: R[C] = 255 emits exactly the byte 0xFF, R[C] = 256
faults with nothing emitted. -/
theorem output_spec_witness :
    Output instOut cfg255 = OpResult.ok { cfg255 with out := [255] } ∧
    Output instOut cfg256 = OpResult.fail cfg256 := by
  refine ⟨?_, (output_spec instOut cfg256).2 (by decide)⟩
  exact (output_spec instOut cfg255).1 (by decide)

/-- C9: when Division (5), Allocation (8), Deallocation (9) or Output (10)
returns the failure code, the terminating state coincides with the state
just before the helper ran: registers, registry, output, input are
untouched and the counter is the already advanced fetch position; the loop
then exits through the fault branch without executing anything further. -/
theorem fault_preserves_state (s c : Config) (w : Nat)
    (hop : (ParseInstruction w).opCode = 5 ∨ (ParseInstruction w).opCode = 8 ∨
      (ParseInstruction w).opCode = 9 ∨ (ParseInstruction w).opCode = 10)
    (hf : exec (ParseInstruction w) w { s with pc := s.pc + 1 } = ExecResult.fail c) :
    c.regs = s.regs ∧ c.heap = s.heap ∧ c.pc = s.pc + 1 ∧ c.out = s.out ∧ c.inp = s.inp ∧
    (∀ p, s.heap 0 = some p → s.pc < p.length → p.getD s.pc 0 = w →
      step s = StepResult.faulted c) := by
  have hc : c = { s with pc := s.pc + 1 } := by
    rcases hop with h | h | h | h
    · rw [exec_opcode_5 _ w _ h] at hf
      exact Divide_fail_eq (liftOp_fail hf)
    · rw [exec_opcode_8 _ w _ h] at hf
      exact Allocate_fail_eq (liftOp_fail hf)
    · rw [exec_opcode_9 _ w _ h] at hf
      exact Deallocate_fail_eq (liftOp_fail hf)
    · rw [exec_opcode_10 _ w _ h] at hf
      exact Output_fail_eq (liftOp_fail hf)
  subst hc
  refine ⟨rfl, rfl, rfl, rfl, rfl, ?_⟩
  intro p hp hpc hw
  rw [step_eq s p w hp hpc hw, hf]
  rfl

/-- C9, witness: the divide-by-zero step of cfgC9 terminates the machine in
the state that only advanced the counter. -/
theorem fault_preserves_state_witness :
    step cfgC9 = StepResult.faulted { cfgC9 with pc := cfgC9.pc + 1 } ∧
    ({ cfgC9 with pc := cfgC9.pc + 1 } : Config).regs = cfgC9.regs := by
  have h := fault_preserves_state cfgC9 { cfgC9 with pc := cfgC9.pc + 1 } 0x50000000
    (Or.inl rfl) rfl
  exact ⟨h.2.2.2.2.2 [0x50000000] rfl (by decide) rfl, h.1⟩

/-- C4: when some positive identifier below the cap is absent, Allocation
succeeds and hands back in register registerB the smallest such identifier,
previously absent, now carrying exactly R[C] zero words, with every other
slot untouched; when every positive identifier below the cap is live it
returns the failure code with the state unchanged. -/
theorem allocate_spec (inst : Instruction) (s : Config) :
    ((∃ i, 0 < i ∧ i < NUM_ARRAYS ∧ s.heap i = none) →
      ∃ t m, Allocate inst s = OpResult.ok t ∧ t.regs inst.registerB = m ∧
        0 < m ∧ m < NUM_ARRAYS ∧ s.heap m = none ∧
        (∀ j, 0 < j → j < m → s.heap j ≠ none) ∧
        t.heap m = some (List.replicate (s.regs inst.registerC) 0) ∧
        (∀ j, j ≠ m → t.heap j = s.heap j)) ∧
    ((∀ i, 0 < i → i < NUM_ARRAYS → s.heap i ≠ none) →
      Allocate inst s = OpResult.fail s) := by
  have hN : NUM_ARRAYS = 65536 := rfl
  constructor
  · rintro ⟨i, hi0, hiN, hinone⟩
    obtain ⟨ha, hb, hc, hd⟩ :=
      allocScan_mem s.heap (NUM_ARRAYS - 1) 1 ⟨i, by omega, by omega, hinone⟩
    refine ⟨_, allocScan s.heap 1 (NUM_ARRAYS - 1),
      Allocate_ok_of_scan inst s _ rfl (by omega), ?_, by omega, by omega, hc,
      fun j hj0 hjm => hd j (by omega) hjm, ?_, ?_⟩
    · simp [updReg]
    · exact updHeap_same s.heap _ _
    · intro j hj
      exact updHeap_other s.heap _ hj
  · intro hall
    have hfull := allocScan_full s.heap (NUM_ARRAYS - 1) 1
      (fun j h1 h2 => hall j (by omega) (by omega))
    unfold Allocate
    rw [if_pos (by omega)]

/-- C4, witness: from cfgC4 the Allocation yields identifier 1 with one
zero word; from cfgC4full, with every identifier below the cap live, it
fails with the state unchanged. -/
theorem allocate_spec_witness :
    (∃ t m, Allocate instAlloc cfgC4 = OpResult.ok t ∧ t.regs instAlloc.registerB = m ∧
      0 < m ∧ m < NUM_ARRAYS ∧ cfgC4.heap m = none ∧
      (∀ j, 0 < j → j < m → cfgC4.heap j ≠ none) ∧
      t.heap m = some (List.replicate (cfgC4.regs instAlloc.registerC) 0) ∧
      (∀ j, j ≠ m → t.heap j = cfgC4.heap j)) ∧
    Allocate instAlloc cfgC4full = OpResult.fail cfgC4full := by
  constructor
  · exact (allocate_spec instAlloc cfgC4).1 ⟨1, by decide, by decide, rfl⟩
  · refine (allocate_spec instAlloc cfgC4full).2 ?_
    intro i h1 h2
    show (if i < NUM_ARRAYS then some [] else none) ≠ none
    rw [if_pos h2]
    simp

/-- C10: Allocation with requested size R[C] = 0 does not fault as long as
some positive identifier below the cap is absent: a fresh identifier
becomes live carrying the empty word vector, of recorded length 0. -/
theorem alloc_zero_spec (inst : Instruction) (s : Config)
    (habs : ∃ i, 0 < i ∧ i < NUM_ARRAYS ∧ s.heap i = none)
    (hzero : s.regs inst.registerC = 0) :
    ∃ t m, Allocate inst s = OpResult.ok t ∧ t.regs inst.registerB = m ∧
      0 < m ∧ m < NUM_ARRAYS ∧ s.heap m = none ∧ t.heap m = some [] := by
  have hN : NUM_ARRAYS = 65536 := rfl
  obtain ⟨i, hi0, hiN, hinone⟩ := habs
  obtain ⟨ha, hb, hc, hd⟩ :=
    allocScan_mem s.heap (NUM_ARRAYS - 1) 1 ⟨i, by omega, by omega, hinone⟩
  refine ⟨_, allocScan s.heap 1 (NUM_ARRAYS - 1),
    Allocate_ok_of_scan inst s _ rfl (by omega), by simp [updReg], by omega, by omega, hc, ?_⟩
  dsimp only
  rw [updHeap_same, hzero]
  rfl

/-- C10, witness: from cfgC10 (all registers zero, only array 0 live) the
Allocation succeeds and identifier 1 becomes live with the empty vector. -/
theorem alloc_zero_spec_witness :
    ∃ t m, Allocate instAlloc cfgC10 = OpResult.ok t ∧ t.regs instAlloc.registerB = m ∧
      0 < m ∧ m < NUM_ARRAYS ∧ cfgC10.heap m = none ∧ t.heap m = some [] :=
  alloc_zero_spec instAlloc cfgC10 ⟨1, by decide, by decide, rfl⟩ rfl

/-- C5: Deallocation returns the failure code, leaving the state unchanged,
when R[C] is 0 or not a live identifier; otherwise R[C] becomes absent with
everything else untouched, and as soon as every smaller positive identifier
is live a following Allocation returns exactly R[C] again.  Stated under
the invariant that identifiers at or past the cap are never live. -/
theorem deallocate_spec (inst : Instruction) (s : Config)
    (hcap : ∀ i, NUM_ARRAYS ≤ i → s.heap i = none) :
    ((s.regs inst.registerC = 0 ∨ s.heap (s.regs inst.registerC) = none) →
      Deallocate inst s = OpResult.fail s) ∧
    (∀ q, s.regs inst.registerC ≠ 0 → s.heap (s.regs inst.registerC) = some q →
      ∃ t, Deallocate inst s = OpResult.ok t ∧
        t.heap (s.regs inst.registerC) = none ∧
        (∀ j, j ≠ s.regs inst.registerC → t.heap j = s.heap j) ∧
        t.regs = s.regs ∧ t.pc = s.pc ∧
        ((∀ j, 0 < j → j < s.regs inst.registerC → s.heap j ≠ none) →
          ∀ inst2, ∃ u, Allocate inst2 t = OpResult.ok u ∧
            u.regs inst2.registerB = s.regs inst.registerC)) := by
  have hN : NUM_ARRAYS = 65536 := rfl
  constructor
  · intro hdisj
    by_cases hz : s.regs inst.registerC = 0
    · unfold Deallocate
      rw [if_pos (Or.inl hz)]
    · rcases hdisj with hz2 | hnone
      · exact absurd hz2 hz
      · by_cases hNle : NUM_ARRAYS ≤ s.regs inst.registerC
        · unfold Deallocate
          rw [if_pos (Or.inr hNle)]
        · unfold Deallocate
          rw [if_neg (not_or.mpr ⟨hz, hNle⟩), hnone]
  · intro q hz hq
    have hlt : s.regs inst.registerC < NUM_ARRAYS := by
      by_contra hcon
      rw [hcap _ (by omega)] at hq
      exact Option.noConfusion hq
    have hDe : Deallocate inst s = OpResult.ok
        { s with heap := updHeap s.heap (s.regs inst.registerC) none } := by
      unfold Deallocate
      rw [if_neg (not_or.mpr ⟨hz, by omega⟩), hq]
    refine ⟨_, hDe, updHeap_same s.heap _ none, ?_, rfl, rfl, ?_⟩
    · intro j hj
      exact updHeap_other s.heap none hj
    · intro hmin inst2
      have hscan : allocScan (updHeap s.heap (s.regs inst.registerC) none) 1
          (NUM_ARRAYS - 1) = s.regs inst.registerC := by
        obtain ⟨ha, hb, hc2, hd2⟩ :=
          allocScan_mem (updHeap s.heap (s.regs inst.registerC) none) (NUM_ARRAYS - 1) 1
            ⟨s.regs inst.registerC, by omega, by omega, updHeap_same s.heap _ none⟩
        rcases Nat.lt_trichotomy
          (allocScan (updHeap s.heap (s.regs inst.registerC) none) 1 (NUM_ARRAYS - 1))
          (s.regs inst.registerC) with hl | he | hg
        · exfalso
          rw [updHeap_other s.heap none (by omega)] at hc2
          exact hmin _ (by omega) hl hc2
        · exact he
        · exfalso
          exact hd2 (s.regs inst.registerC) (by omega) hg (updHeap_same s.heap _ none)
      have hAl := Allocate_ok_of_scan inst2
        { s with heap := updHeap s.heap (s.regs inst.registerC) none }
        (s.regs inst.registerC) hscan (by omega)
      exact ⟨_, hAl, by simp [updReg]⟩

/-- C5, witness: freeing identifier 2 in cfgC5 succeeds, slot 2 becomes
absent with the rest untouched, and the reuse clause applies since
identifier 1 is live. -/
theorem deallocate_spec_witness :
    ∃ t, Deallocate instDealloc cfgC5 = OpResult.ok t ∧
      t.heap (cfgC5.regs instDealloc.registerC) = none ∧
      (∀ j, j ≠ cfgC5.regs instDealloc.registerC → t.heap j = cfgC5.heap j) ∧
      t.regs = cfgC5.regs ∧ t.pc = cfgC5.pc ∧
      ((∀ j, 0 < j → j < cfgC5.regs instDealloc.registerC → cfgC5.heap j ≠ none) →
        ∀ inst2, ∃ u, Allocate inst2 t = OpResult.ok u ∧
          u.regs inst2.registerB = cfgC5.regs instDealloc.registerC) := by
  have hcap : ∀ i, NUM_ARRAYS ≤ i → cfgC5.heap i = none := by
    intro i hi
    have h65 : (65536 : Nat) ≤ i := hi
    show (if i < 3 then some [] else none) = none
    rw [if_neg (by omega)]
  exact (deallocate_spec instDealloc cfgC5 hcap).2 [] (by decide) rfl

/-- C6: starting from a loaded non-empty image, after every executed
instruction that leaves the machine still running, array 0 is live and
non-empty; a step that makes it empty necessarily ends in a terminal
state within the same iteration. -/
theorem array0_invariant (img input : List Nat) (himg : img ≠ []) (n : Nat) (c : Config)
    (h : run n (StepResult.running (initConfig img input)) = StepResult.running c) :
    ∃ p, c.heap 0 = some p ∧ 1 ≤ p.length := by
  have h0 : ∃ p, (initConfig img input).heap 0 = some p ∧
      (initConfig img input).pc < p.length :=
    ⟨img, rfl, List.length_pos.mpr himg⟩
  obtain ⟨p, hp, hpc⟩ := run_running h h0
  exact ⟨p, hp, by omega⟩

/-- C6, witness: at machine start on the one-word halt image, array 0 is
live and non-empty. -/
theorem array0_invariant_witness :
    ∃ p, (initConfig [0x70000000] []).heap 0 = some p ∧ 1 ≤ p.length :=
  array0_invariant [0x70000000] [] (by simp) 0 (initConfig [0x70000000] []) rfl

end UM
